import Mathlib

/-!
Verification of the request-classification and firmware-streaming state
machine of `simple_pushota.c` (`ota_receive`).

The embedding models the connected byte stream as a list of transport
events: an error (`recv` returning a negative value) or a chunk of bytes.
`recv n` delivers up to `n` bytes from the head chunk and pushes any
remainder back, which models arbitrary TCP chunking; an exhausted stream
or an empty chunk yields a zero-length read (EOF).

All interactions with the socket and the OTA storage subsystem are
recorded in a trace of events, so that the theorems can speak about what
was sent, written, finalized or aborted.  Loops are written with an
explicit fuel argument (structural recursion) and the public wrappers
instantiate the fuel with `nsSize ns + 1`, which strictly dominates the
number of iterations since every continued iteration consumes at least
one byte or one event from the stream.
-/

set_option maxRecDepth 10000

namespace SimplePushota

/-- A transport event: a failed read, or a chunk of delivered bytes. -/
inductive NetEvt
  | err
  | chunk (data : List Nat)
deriving DecidableEq, Repr

/-- The connected stream, as the sequence of outcomes `recv` will see. -/
abbrev NetStream := List NetEvt

/-- Model of `recv(sock, buf, n, 0)`: `none` is a negative return value;
`some (d, rest)` delivers the bytes `d` (empty `d` is EOF, i.e. a zero
return).  A chunk longer than `n` is split: the remainder is pushed back
as the next chunk, modelling arbitrary transport-level chunking. -/
def recv (n : Nat) : NetStream → Option (List Nat × NetStream)
  | [] => some ([], [])
  | NetEvt.err :: _ => none
  | NetEvt.chunk c :: rest =>
      some (c.take n, if c.drop n = [] then rest else NetEvt.chunk (c.drop n) :: rest)

/-- Total number of bytes and events in the stream (a termination measure). -/
def nsSize : NetStream → Nat
  | [] => 0
  | NetEvt.err :: rest => 1 + nsSize rest
  | NetEvt.chunk c :: rest => c.length + 1 + nsSize rest

/-- The stream contains no transport error. -/
def noErr : NetStream → Bool
  | [] => true
  | NetEvt.err :: _ => false
  | NetEvt.chunk _ :: rest => noErr rest

/-- Bytes of a C string literal. -/
def strBytes (str : String) : List Nat := str.data.map Char.toNat

/-- `"\r\n\r\n"`, the separator between headers and content. -/
def sepBytes : List Nat := [13, 10, 13, 10]

/-- `"Content-Length:"`. -/
def clBytes : List Nat := strBytes "Content-Length:"

/-- `strstr`: index of the first occurrence of `pat` in `hay`
(the caller truncates `hay` at the first NUL byte). -/
def findSubAux (hay pat : List Nat) (i : Nat) : Option Nat :=
  if pat.isPrefixOf hay then some i
  else
    match hay with
    | [] => none
    | _ :: t => findSubAux t pat (i + 1)

/-- First occurrence of `pat` in `hay`. -/
def findSub (hay pat : List Nat) : Option Nat := findSubAux hay pat 0

/-- `OTA_BUFSIZE`. -/
def OTA_BUFSIZE : Nat := 1024

/-- Outcome of the header-accumulation loop (`ota_receive` lines 73-92):
transport failure before the separator was found, buffer full without the
separator, or success with the accumulated bytes, the offset one past the
separator (`binstart - buf`), and the remaining stream. -/
inductive HdrOut
  | fail
  | tooLarge
  | ok (acc : List Nat) (binpos : Nat) (rest : NetStream)
deriving DecidableEq, Repr

/-- The header-accumulation do/while loop.  Each iteration reads into the
free part of the buffer, NUL-terminates, and searches the freshly read
chunk (`strstr(s, needle)`, where `s` is the position the chunk was
written at — not the start of the buffer) for `"\r\n\r\n"`.  The search
haystack is the chunk truncated at its first NUL byte, as `strstr`
operates on a C string. -/
def hdrLoopF : Nat → List Nat → NetStream → HdrOut
  | 0, _, _ => HdrOut.fail
  | fuel+1, acc, ns =>
    match recv (OTA_BUFSIZE - 1 - acc.length) ns with
    | none => HdrOut.fail
    | some (d, ns') =>
      if d = [] then HdrOut.fail
      else
        match findSub (d.takeWhile fun b => b != 0) sepBytes with
        | some i => HdrOut.ok (acc ++ d) (acc.length + i + sepBytes.length) ns'
        | none =>
          if OTA_BUFSIZE - 1 ≤ acc.length + d.length then HdrOut.tooLarge
          else hdrLoopF fuel (acc ++ d) ns'

/-- Header accumulation, starting from an empty buffer. -/
def hdrLoop (ns : NetStream) : HdrOut := hdrLoopF (nsSize ns + 1) [] ns

/-- Observable interactions of the handler. -/
inductive Event
  | otaBegin (label : String) (size : Int)
  | otaWrite (data : List Nat)
  | recvd (data : List Nat)
  | otaEnd
  | setBoot (label : String)
  | otaAbort
  | send (resp : String)
deriving DecidableEq, Repr

/-- Result of one `ota_receive` invocation: the returned status code and
the trace of observable interactions, in order. -/
structure OtaOut where
  ret : Int
  trace : List Event
deriving DecidableEq, Repr

def ESP_OK : Int := 0
def ESP_FAIL : Int := -1
def ESP_ERR_NOT_SUPPORTED : Int := 262

/-- Environment: compile-time feature flag, firmware version string,
available update partition, and the outcomes the storage subsystem
reports for begin/write/end/set-boot. -/
structure Env where
  getversion : Bool
  version : String
  upart : Option String
  beginOk : Bool
  writeOk : Bool
  endRet : Int
  setBootRet : Int
deriving DecidableEq, Repr

/-- `"HTTP/1.0 " status "\r\n\r\n"` (the `outstatus` epilogue). -/
def statusResp (st : String) : String := "HTTP/1.0 " ++ st ++ "\r\n\r\n"

/-- Read size of the body loop:
`(sizeof(buf) < binlen) ? sizeof(buf) : binlen` — note the comparison is
between an unsigned `sizeof` and a signed `int`, so a negative `binlen`
converts to a huge unsigned value and the request size is the full
buffer. -/
def reqSize (b : Int) : Nat :=
  if 1024 < b then 1024 else if b < 0 then 1024 else b.toNat

/-- Outcome of the body-transfer `while (binlen)` loop: `failed` is a
`goto failota` (read error, or a rejected `esp_ota_write`); `done`
carries the remaining count at loop exit (`0` on full transfer, the
residue on EOF). -/
inductive LoopOut
  | failed (tr : List Event)
  | done (rem : Int) (tr : List Event)
deriving DecidableEq, Repr

/-- The body-transfer loop (`ota_receive` lines 175-186). -/
def bodyLoopF : Nat → Bool → Int → NetStream → List Event → LoopOut
  | 0, _, _, _, tr => LoopOut.failed tr
  | fuel+1, w, binlen, ns, tr =>
    if binlen = 0 then LoopOut.done 0 tr
    else
      match recv (reqSize binlen) ns with
      | none => LoopOut.failed tr
      | some (d, ns') =>
        if d = [] then LoopOut.done binlen tr
        else if w then bodyLoopF fuel w (binlen - d.length) ns' (tr ++ [Event.recvd d, Event.otaWrite d])
        else LoopOut.failed (tr ++ [Event.recvd d, Event.otaWrite d])

/-- The body-transfer loop with sufficient fuel. -/
def bodyLoop (w : Bool) (binlen : Int) (ns : NetStream) (tr : List Event) : LoopOut :=
  bodyLoopF (nsSize ns + 1) w binlen ns tr

/-- `failota`/`outstatus` with the default 500 status: abort the OTA
handle and send `"500 Internal Server Error"`, returning `ESP_FAIL`. -/
def failOut (tr : List Event) : OtaOut :=
  ⟨ESP_FAIL, tr ++ [Event.otaAbort, Event.send (statusResp "500 Internal Server Error")]⟩

/-- Finalization (`ota_receive` lines 191-205): `esp_ota_end`, then — only
if it succeeded — `esp_ota_set_boot_partition` and the success or failure
response.  An `esp_ota_end` failure returns its code with no response. -/
def finOut (env : Env) (label : String) (tr : List Event) : OtaOut :=
  if env.endRet ≠ ESP_OK then ⟨env.endRet, tr ++ [Event.otaEnd]⟩
  else if env.setBootRet = ESP_OK then
    ⟨env.setBootRet, tr ++ [Event.otaEnd, Event.setBoot label,
      Event.send ("HTTP/1.0 200 OK\r\n\r\nNext boot partition: " ++ label ++ "\n")]⟩
  else
    ⟨env.setBootRet, tr ++ [Event.otaEnd, Event.setBoot label,
      Event.send ("HTTP/1.0 500 Internal Server Error\r\n\r\nFailed (" ++ toString env.setBootRet ++ ").\n")]⟩

/-- Run the body loop, then `if (binlen) goto failota` and finalize. -/
def bodyPhase (env : Env) (label : String) (binlen : Int) (tr : List Event) (ns : NetStream) : OtaOut :=
  match bodyLoop env.writeOk binlen ns tr with
  | LoopOut.failed tr' => failOut tr'
  | LoopOut.done rem tr' => if rem = 0 then finOut env label tr' else failOut tr'

/-- The upload phase (`ota_receive` lines 163-189): `esp_ota_begin`, the
leftover body bytes captured with the header written first (with
`binlen -= len` only after a successful write), then the transfer loop. -/
def uploadRun (env : Env) (label : String) (binlen : Int) (leftover : List Nat) (ns : NetStream) : OtaOut :=
  if env.beginOk = false then failOut [Event.otaBegin label binlen]
  else if leftover = [] then
    bodyPhase env label binlen [Event.otaBegin label binlen] ns
  else if env.writeOk = false then
    failOut [Event.otaBegin label binlen, Event.otaWrite leftover]
  else
    bodyPhase env label (binlen - leftover.length) [Event.otaBegin label binlen, Event.otaWrite leftover] ns

/-- The buffer as the C string the classification reads: the header bytes
followed by the NUL that `ota_receive` stores at `binstart`. -/
def hdrCStr (acc : List Nat) (binpos : Nat) : List Nat := acc.take binpos ++ [0]

/-- The haystack `strstr(buf, "Content-Length:")` searches: the header
region truncated at its first NUL byte. -/
def hdrRegion (acc : List Nat) (binpos : Nat) : List Nat :=
  (acc.take binpos).takeWhile fun b => b != 0

/-- `!strncmp(buf, pat, strlen(pat))`. -/
def prefB (pat : String) (l : List Nat) : Bool := (strBytes pat).isPrefixOf l

/-- Digit run of `strtol`: consume decimal digits, accumulating base 10. -/
def readDigits : List Nat → Nat → Nat
  | [], acc => acc
  | b :: rest, acc =>
    if 48 ≤ b ∧ b ≤ 57 then readDigits rest (acc * 10 + (b - 48)) else acc

/-- `isspace` on a byte. -/
def isSpaceB (b : Nat) : Bool := b == 32 || (9 ≤ b && b ≤ 13)

/-- `strtol(s, NULL, 10)`: skip whitespace, optional sign, digit run. -/
def strtol10 (l : List Nat) : Int :=
  match l.dropWhile isSpaceB with
  | [] => 0
  | b :: rest =>
    if b = 45 then -(readDigits rest 0 : Int)
    else if b = 43 then (readDigits rest 0 : Int)
    else (readDigits (b :: rest) 0 : Int)

/-- Classification and dispatch after the separator was found
(`ota_receive` lines 115-172): `GET ` (when the version query is compiled
in), `DELETE `, `POST ` in that order; then the no-partition check, then
the `Content-Length` extraction, then the upload phase. -/
def handleReq (env : Env) (acc : List Nat) (binpos : Nat) (ns : NetStream) : OtaOut :=
  if env.getversion && prefB "GET " (hdrCStr acc binpos) then
    ⟨ESP_FAIL, [Event.send ("HTTP/1.0 200 OK\r\n\r\nVersion: " ++ env.version ++ "\n")]⟩
  else if prefB "DELETE " (hdrCStr acc binpos) then
    ⟨ESP_OK, [Event.send (statusResp "204 No Content")]⟩
  else if !prefB "POST " (hdrCStr acc binpos) then
    ⟨ESP_FAIL, [Event.send (statusResp "405 Method Not Allowed")]⟩
  else
    match env.upart with
    | none => ⟨ESP_ERR_NOT_SUPPORTED, [Event.send (statusResp "501 Not Implemented")]⟩
    | some label =>
      match findSub (hdrRegion acc binpos) clBytes with
      | none => ⟨ESP_FAIL, [Event.send (statusResp "411 Length Required")]⟩
      | some i =>
        if strtol10 ((hdrRegion acc binpos).drop (i + clBytes.length)) = 0 then
          ⟨ESP_FAIL, [Event.send (statusResp "411 Length Required")]⟩
        else
          uploadRun env label (strtol10 ((hdrRegion acc binpos).drop (i + clBytes.length)))
            (acc.drop binpos) ns

/-- The whole of `ota_receive`: header accumulation (a `len <= 0` read
returns `ESP_FAIL` with no response; a full buffer without the separator
is a 431), then classification and dispatch. -/
def ota_receive (env : Env) (ns : NetStream) : OtaOut :=
  match hdrLoop ns with
  | HdrOut.fail => ⟨ESP_FAIL, []⟩
  | HdrOut.tooLarge => ⟨ESP_FAIL, [Event.send (statusResp "431 Request Header Fields Too Large")]⟩
  | HdrOut.ok acc binpos ns' => handleReq env acc binpos ns'

/-! ### Trace observables -/

/-- Is the event a response write to the stream? -/
def Event.isSend : Event → Bool
  | Event.send _ => true
  | _ => false

/-- Is the event a body read from the stream? -/
def Event.isRecvd : Event → Bool
  | Event.recvd _ => true
  | _ => false

/-- Is the event a write to the Write Sink? -/
def Event.isWrite : Event → Bool
  | Event.otaWrite _ => true
  | _ => false

/-- Events the body-transfer loop produces. -/
def bodyEvt (e : Event) : Bool := e.isRecvd || e.isWrite

/-- Bytes carried by a single event, as passed to `esp_ota_write`. -/
def evtBytes : Event → List Nat
  | Event.otaWrite d => d
  | _ => []

/-- All bytes passed to the Write Sink over a trace, in order. -/
def writtenData (tr : List Event) : List Nat := (tr.map evtBytes).flatten

/-- Number of responses written to the stream. -/
def sendCount (tr : List Event) : Nat := (tr.filter fun e => e.isSend).length

/-- The leftover body prefix captured during header accumulation. -/
def hdrLeftover (ns : NetStream) : Option (List Nat) :=
  match hdrLoop ns with
  | HdrOut.ok acc binpos _ => some (acc.drop binpos)
  | _ => none

/-- Length of the leftover body prefix (0 when headers were not parsed). -/
def leftoverLen (ns : NetStream) : Nat :=
  match hdrLoop ns with
  | HdrOut.ok acc binpos _ => (acc.drop binpos).length
  | _ => 0

/-- The stream left after header accumulation. -/
def hdrRest (ns : NetStream) : Option NetStream :=
  match hdrLoop ns with
  | HdrOut.ok _ _ ns' => some ns'
  | _ => none

/-- The Transfer Counter immediately after the leftover-prefix
subtraction, read off the trace: the declared size of the `otaBegin`
event, minus the length of a leading leftover write when one happened
before any body read. -/
def afterLeftoverCounter : List Event → Option Int
  | Event.otaBegin _ b :: Event.otaWrite leftover :: _ => some (b - leftover.length)
  | Event.otaBegin _ b :: _ => some b
  | _ => none

/-- The successive values of the Transfer Counter at the head of the
body-transfer loop (mirrors `bodyLoopF` step for step). -/
def bodyCountersF : Nat → Bool → Int → NetStream → List Int
  | 0, _, b, _ => [b]
  | fuel+1, w, b, ns =>
    if b = 0 then [b]
    else
      match recv (reqSize b) ns with
      | none => [b]
      | some (d, ns') =>
        if d = [] then [b]
        else if w then b :: bodyCountersF fuel w (b - d.length) ns'
        else [b]

/-- Counter trajectory with sufficient fuel. -/
def bodyCounters (w : Bool) (b : Int) (ns : NetStream) : List Int :=
  bodyCountersF (nsSize ns + 1) w b ns

/-- Did the run end on a path that writes no status at all?  True exactly
for a transport failure during header accumulation, and for a reached but
failed `esp_ota_end`. -/
def noStatusPath (env : Env) (ns : NetStream) : Bool :=
  match hdrLoop ns with
  | HdrOut.fail => true
  | _ => if Event.otaEnd ∈ (ota_receive env ns).trace ∧ env.endRet ≠ ESP_OK then true else false

/-! ### Concrete test fixtures -/

/-- An environment with everything available and succeeding. -/
def env0 : Env := ⟨true, "1.2.3", some "ota_1", true, true, ESP_OK, ESP_OK⟩

/-- An environment whose storage subsystem reports no writable slot. -/
def envNoPart : Env := ⟨true, "1.2.3", none, true, true, ESP_OK, ESP_OK⟩

/-- A well-formed upload whose body arrives split across two segments. -/
def nsUp : NetStream :=
  [NetEvt.chunk (strBytes "POST / HTTP/1.1\r\nContent-Length: 4\r\n\r\nAB"),
   NetEvt.chunk (strBytes "CD")]

/-- An upload whose peer closes after 2 of 10 declared body bytes. -/
def nsShort : NetStream :=
  [NetEvt.chunk (strBytes "POST / HTTP/1.0\r\nContent-Length: 10\r\n\r\nAB")]

/-- A request whose header separator is split across two reads. -/
def nsSplit : NetStream :=
  [NetEvt.chunk (strBytes "GET / HTTP/1.0\r\n"), NetEvt.chunk (strBytes "\r\n")]

/-- An upload delivering 10 body bytes although it declared 2. -/
def nsOver : NetStream :=
  [NetEvt.chunk (strBytes "POST / HTTP/1.0\r\nContent-Length: 2\r\n\r\n0123456789")]

/-- A POST with no `Content-Length` header. -/
def nsNoLen : NetStream := [NetEvt.chunk (strBytes "POST / HTTP/1.0\r\n\r\n")]

/-- The header bytes of `nsNoLen`. -/
def accNoLen : List Nat := strBytes "POST / HTTP/1.0\r\n\r\n"

/-- 1023 bytes of `A` with no separator: fills the buffer. -/
def nsBig : NetStream := [NetEvt.chunk (List.replicate 1023 65)]

/-- A request with an unsupported method. -/
def nsPatch : NetStream := [NetEvt.chunk (strBytes "PATCH / HTTP/1.0\r\n\r\n")]

/-- The header bytes of `nsPatch`. -/
def accPatch : List Nat := strBytes "PATCH / HTTP/1.0\r\n\r\n"

/-- A version query. -/
def nsGet : NetStream := [NetEvt.chunk (strBytes "GET / HTTP/1.0\r\n\r\n")]

/-- The header bytes of `nsGet`. -/
def accGet : List Nat := strBytes "GET / HTTP/1.0\r\n\r\n"

/-- An abort request. -/
def nsDel : NetStream := [NetEvt.chunk (strBytes "DELETE / HTTP/1.0\r\n\r\n")]

/-- The header bytes of `nsDel`. -/
def accDel : List Nat := strBytes "DELETE / HTTP/1.0\r\n\r\n"

/-! ### Stream lemmas -/

lemma recv_len_le {n : Nat} {ns ns' : NetStream} {d : List Nat}
    (h : recv n ns = some (d, ns')) : d.length ≤ n := by
  cases ns with
  | nil =>
    simp only [recv, Option.some.injEq, Prod.mk.injEq] at h
    simp [← h.1]
  | cons e rest =>
    cases e with
    | err => simp [recv] at h
    | chunk c =>
      simp only [recv, Option.some.injEq, Prod.mk.injEq] at h
      rw [← h.1]
      simp [List.length_take]

lemma recv_size_lt {n : Nat} {ns ns' : NetStream} {d : List Nat}
    (h : recv n ns = some (d, ns')) (hd : d ≠ []) : nsSize ns' < nsSize ns := by
  cases ns with
  | nil =>
    simp only [recv, Option.some.injEq, Prod.mk.injEq] at h
    exact absurd h.1.symm hd
  | cons e rest =>
    cases e with
    | err => simp [recv] at h
    | chunk c =>
      simp only [recv, Option.some.injEq, Prod.mk.injEq] at h
      obtain ⟨h1, h2⟩ := h
      have hdlen : 0 < d.length := List.length_pos.mpr hd
      have hdl : d.length = min n c.length := by rw [← h1]; simp [List.length_take]
      by_cases hdrop : c.drop n = []
      · rw [if_pos hdrop] at h2
        rw [← h2]
        simp only [nsSize]
        omega
      · rw [if_neg hdrop] at h2
        rw [← h2]
        simp only [nsSize, List.length_drop]
        omega

lemma recv_noErr {n : Nat} {ns ns' : NetStream} {d : List Nat}
    (hne : noErr ns = true) (h : recv n ns = some (d, ns')) : noErr ns' = true := by
  cases ns with
  | nil =>
    simp only [recv, Option.some.injEq, Prod.mk.injEq] at h
    rw [← h.2]; rfl
  | cons e rest =>
    cases e with
    | err => simp [recv] at h
    | chunk c =>
      simp only [recv, Option.some.injEq, Prod.mk.injEq] at h
      have hrest : noErr rest = true := hne
      rw [← h.2]
      by_cases hdrop : c.drop n = []
      · rw [if_pos hdrop]; exact hrest
      · rw [if_neg hdrop]; exact hrest

lemma recv_isSome {n : Nat} {ns : NetStream} (hne : noErr ns = true) :
    recv n ns ≠ none := by
  cases ns with
  | nil => simp [recv]
  | cons e rest =>
    cases e with
    | err => simp [noErr] at hne
    | chunk c => simp [recv]

lemma hdrLoopF_noErr : ∀ (fuel : Nat) (acc : List Nat) (ns : NetStream)
    {acc' : List Nat} {bp : Nat} {ns' : NetStream},
    hdrLoopF fuel acc ns = HdrOut.ok acc' bp ns' → noErr ns = true → noErr ns' = true := by
  intro fuel
  induction fuel with
  | zero => intro acc ns acc' bp ns' h _; simp [hdrLoopF] at h
  | succ fuel ih =>
    intro acc ns acc' bp ns' h hne
    rw [hdrLoopF] at h
    cases hr : recv (OTA_BUFSIZE - 1 - acc.length) ns with
    | none => rw [hr] at h; simp at h
    | some p =>
      obtain ⟨d, ns₁⟩ := p
      rw [hr] at h
      dsimp only at h
      by_cases hd : d = []
      · rw [if_pos hd] at h; simp at h
      · rw [if_neg hd] at h
        cases hf : findSub (d.takeWhile fun b => b != 0) sepBytes with
        | some i =>
          rw [hf] at h
          simp only [HdrOut.ok.injEq] at h
          rw [← h.2.2]
          exact recv_noErr hne hr
        | none =>
          rw [hf] at h
          by_cases hfull : OTA_BUFSIZE - 1 ≤ acc.length + d.length
          · rw [if_pos hfull] at h; simp at h
          · rw [if_neg hfull] at h
            exact ih _ _ h (recv_noErr hne hr)

/-! ### Trace lemmas -/

lemma writtenData_append (a b : List Event) :
    writtenData (a ++ b) = writtenData a ++ writtenData b := by
  simp [writtenData]

lemma writtenData_cons (e : Event) (l : List Event) :
    writtenData (e :: l) = evtBytes e ++ writtenData l := by
  simp [writtenData]

lemma getLast_append_pair (l : List Event) (a b : Event) :
    (l ++ [a, b]).getLast? = some b := by
  have h : l ++ [a, b] = (l ++ [a]) ++ [b] := by simp
  rw [h, List.getLast?_concat]

lemma mem_takeWhile_append {p : Event → Bool} :
    ∀ (l₁ l₂ : List Event) (x : Event), l₁.all p = true → x ∈ l₁ →
      x ∈ (l₁ ++ l₂).takeWhile p := by
  intro l₁
  induction l₁ with
  | nil => intro _ x _ hx; cases hx
  | cons a t ih =>
    intro l₂ x hall hx
    rw [List.all_cons, Bool.and_eq_true] at hall
    rw [List.cons_append, List.takeWhile_cons_of_pos hall.1]
    rcases List.mem_cons.mp hx with rfl | hx
    · exact List.mem_cons_self _ _
    · exact List.mem_cons_of_mem _ (ih _ _ hall.2 hx)

/-! ### Body-transfer loop lemmas -/

/-- Trace decomposition and byte accounting of the body loop: the final
trace extends the initial one by body events only, the extension begins
with a read if it is nonempty, and (on a normal exit) the bytes written
during the loop account exactly for the decrease of the counter. -/
lemma bodyLoopF_decomp : ∀ (fuel : Nat) (w : Bool) (b : Int) (ns : NetStream) (tr : List Event),
    ∃ evs : List Event, evs.all bodyEvt = true ∧
      evs.takeWhile (fun e => !Event.isRecvd e) = [] ∧
      ((∃ tr', bodyLoopF fuel w b ns tr = LoopOut.failed tr' ∧ tr' = tr ++ evs) ∨
       (∃ rem, bodyLoopF fuel w b ns tr = LoopOut.done rem (tr ++ evs) ∧
          ((writtenData evs).length : Int) = b - rem)) := by
  intro fuel
  induction fuel with
  | zero =>
    intro w b ns tr
    exact ⟨[], rfl, rfl, Or.inl ⟨tr, rfl, by simp⟩⟩
  | succ fuel ih =>
    intro w b ns tr
    rw [bodyLoopF]
    by_cases hb : b = 0
    · rw [if_pos hb]
      exact ⟨[], rfl, rfl, Or.inr ⟨0, by simp, by simp [writtenData, hb]⟩⟩
    · rw [if_neg hb]
      cases hr : recv (reqSize b) ns with
      | none => exact ⟨[], rfl, rfl, Or.inl ⟨tr, rfl, by simp⟩⟩
      | some p =>
        obtain ⟨d, ns'⟩ := p
        dsimp only
        by_cases hd : d = []
        · rw [if_pos hd]
          exact ⟨[], rfl, rfl, Or.inr ⟨b, by simp, by simp [writtenData]⟩⟩
        · rw [if_neg hd]
          by_cases hw : w = true
          · rw [if_pos hw]
            obtain ⟨evs₀, h1, h2, h3⟩ := ih w (b - d.length) ns' (tr ++ [Event.recvd d, Event.otaWrite d])
            refine ⟨Event.recvd d :: Event.otaWrite d :: evs₀, ?_, ?_, ?_⟩
            · simp only [List.all_cons, h1, Bool.and_true]
              rfl
            · rfl
            · rcases h3 with ⟨tr', heq, htr⟩ | ⟨rem, heq, hacc⟩
              · exact Or.inl ⟨tr', heq, by rw [htr]; simp⟩
              · refine Or.inr ⟨rem, ?_, ?_⟩
                · rw [heq]; simp
                · rw [writtenData_cons, writtenData_cons]
                  simp only [evtBytes, List.nil_append, List.length_append]
                  push_cast
                  omega
          · rw [if_neg hw]
            refine ⟨[Event.recvd d, Event.otaWrite d], rfl, rfl, Or.inl ⟨_, rfl, rfl⟩⟩

/-- With no transport error on the stream and a Write Sink accepting all
writes, the body loop never takes the `goto failota` exit. -/
lemma bodyLoopF_no_failed : ∀ (fuel : Nat) (b : Int) (ns : NetStream) (tr : List Event),
    nsSize ns < fuel → noErr ns = true →
    ∀ tr', bodyLoopF fuel true b ns tr ≠ LoopOut.failed tr' := by
  intro fuel
  induction fuel with
  | zero => intro b ns tr hsz; omega
  | succ fuel ih =>
    intro b ns tr hsz hne tr'
    rw [bodyLoopF]
    by_cases hb : b = 0
    · rw [if_pos hb]; simp
    · rw [if_neg hb]
      cases hr : recv (reqSize b) ns with
      | none => exact absurd hr (recv_isSome hne)
      | some p =>
        obtain ⟨d, ns'⟩ := p
        dsimp only
        by_cases hd : d = []
        · rw [if_pos hd]; simp
        · rw [if_neg hd, if_pos rfl]
          have hlt : nsSize ns' < fuel := by
            have := recv_size_lt hr hd
            omega
          exact ih _ _ _ hlt (recv_noErr hne hr) tr'

/-! ### Transfer-Counter lemmas -/

lemma reqSize_le {b : Int} (hb : 0 < b) : (reqSize b : Int) ≤ b := by
  rw [reqSize]
  by_cases h1 : 1024 < b
  · rw [if_pos h1]; omega
  · rw [if_neg h1, if_neg (by omega)]
    rw [Int.toNat_of_nonneg (by omega)]

lemma reqSize_eq_min {b : Int} (hb : 0 < b) : (reqSize b : Int) = min 1024 b := by
  rw [reqSize]
  by_cases h1 : 1024 < b
  · rw [if_pos h1]; omega
  · rw [if_neg h1, if_neg (by omega)]
    rw [Int.toNat_of_nonneg (by omega)]
    omega

lemma bodyCountersF_head : ∀ (fuel : Nat) (w : Bool) (b : Int) (ns : NetStream),
    ∃ t, bodyCountersF fuel w b ns = b :: t := by
  intro fuel w b ns
  cases fuel with
  | zero => exact ⟨[], rfl⟩
  | succ fuel =>
    rw [bodyCountersF]
    by_cases hb : b = 0
    · rw [if_pos hb]; exact ⟨[], rfl⟩
    · rw [if_neg hb]
      cases hr : recv (reqSize b) ns with
      | none => exact ⟨[], rfl⟩
      | some p =>
        obtain ⟨d, ns'⟩ := p
        dsimp only
        by_cases hd : d = []
        · rw [if_pos hd]; exact ⟨[], rfl⟩
        · rw [if_neg hd]
          by_cases hw : w = true
          · rw [if_pos hw]; exact ⟨_, rfl⟩
          · rw [if_neg hw]; exact ⟨[], rfl⟩

/-- The counter trajectory is non-increasing and stays within `[0, b]`
when it starts at a non-negative `b`. -/
lemma bodyCountersF_inv : ∀ (fuel : Nat) (w : Bool) (b : Int) (ns : NetStream), 0 ≤ b →
    (∀ c ∈ bodyCountersF fuel w b ns, 0 ≤ c ∧ c ≤ b) ∧
    List.Chain' (fun x y => y ≤ x) (bodyCountersF fuel w b ns) := by
  intro fuel
  induction fuel with
  | zero =>
    intro w b ns hb
    constructor
    · intro c hc
      simp only [bodyCountersF, List.mem_singleton] at hc
      omega
    · simp [bodyCountersF]
  | succ fuel ih =>
    intro w b ns hb
    rw [bodyCountersF]
    by_cases hb0 : b = 0
    · rw [if_pos hb0]
      exact ⟨fun c hc => by simp at hc; omega, by simp⟩
    · rw [if_neg hb0]
      cases hr : recv (reqSize b) ns with
      | none => exact ⟨fun c hc => by simp at hc; omega, by simp⟩
      | some p =>
        obtain ⟨d, ns'⟩ := p
        dsimp only
        by_cases hd : d = []
        · rw [if_pos hd]
          exact ⟨fun c hc => by simp at hc; omega, by simp⟩
        · rw [if_neg hd]
          by_cases hw : w = true
          · rw [if_pos hw]
            have hdle : (d.length : Int) ≤ reqSize b := by
              exact_mod_cast recv_len_le hr
            have hble : (reqSize b : Int) ≤ b := reqSize_le (by omega)
            have hb' : 0 ≤ b - d.length := by omega
            obtain ⟨hmem, hchain⟩ := ih w (b - d.length) ns' hb'
            obtain ⟨t, ht⟩ := bodyCountersF_head fuel w (b - d.length) ns'
            constructor
            · intro c hc
              rcases List.mem_cons.mp hc with rfl | hc
              · omega
              · have := hmem c hc
                omega
            · rw [ht]
              rw [ht] at hchain
              exact List.Chain'.cons (by omega) hchain
          · rw [if_neg hw]
            exact ⟨fun c hc => by simp at hc; omega, by simp⟩

/-! ### Classification lemmas -/

lemma prefB_iff {pat : String} {l : List Nat} : prefB pat l = true ↔ strBytes pat <+: l := by
  rw [prefB]
  exact List.isPrefixOf_iff_prefix

lemma not_get_of_delete {l : List Nat} (h : prefB "DELETE " l = true) :
    prefB "GET " l = false := by
  obtain ⟨t, ht⟩ := prefB_iff.mp h
  have hD : strBytes "DELETE " = 68 :: strBytes "ELETE " := by decide
  have hG : strBytes "GET " = [71, 69, 84, 32] := by decide
  rw [← ht, hD]
  rw [show prefB "GET " ((68 :: strBytes "ELETE ") ++ t) =
    (strBytes "GET ").isPrefixOf (68 :: (strBytes "ELETE " ++ t)) from rfl, hG]
  simp [List.isPrefixOf]

/-! ### `strtol` digit-run lemmas -/

lemma readDigits_eq_foldl : ∀ (l : List Nat) (acc : Nat), (∀ b ∈ l, 48 ≤ b ∧ b ≤ 57) →
    readDigits l acc = l.foldl (fun a d => a * 10 + (d - 48)) acc := by
  intro l
  induction l with
  | nil => intro acc _; rfl
  | cons b t ih =>
    intro acc hall
    have hb := hall b (List.mem_cons_self _ _)
    rw [readDigits, if_pos hb, List.foldl_cons]
    exact ih _ fun x hx => hall x (List.mem_cons_of_mem _ hx)

lemma strtol10_digits {l : List Nat} (hall : ∀ b ∈ l, 48 ≤ b ∧ b ≤ 57) :
    strtol10 l = ((l.foldl (fun a d => a * 10 + (d - 48)) 0 : Nat) : Int) ∧
    0 ≤ strtol10 l := by
  cases l with
  | nil => exact ⟨rfl, by rw [show strtol10 [] = 0 from rfl]⟩
  | cons b t =>
    have hb := hall b (List.mem_cons_self _ _)
    have hsp : isSpaceB b = false := by
      rw [isSpaceB]
      have h1 : (b == 32) = false := by simp; omega
      have h2 : (9 ≤ b && b ≤ 13) = false := by
        simp only [Bool.and_eq_false_iff]
        right; simp; omega
      rw [h1, h2]
      rfl
    have hdw : (b :: t).dropWhile isSpaceB = b :: t := by
      rw [List.dropWhile_cons_of_neg (by rw [hsp]; exact Bool.false_ne_true)]
    have h45 : ¬b = 45 := by omega
    have h43 : ¬b = 43 := by omega
    rw [strtol10, hdw]
    dsimp only
    rw [if_neg h45, if_neg h43]
    rw [readDigits_eq_foldl _ _ hall]
    exact ⟨rfl, by positivity⟩

/-! ### Path-shape case lemmas -/

lemma finOut_cases (env : Env) (label : String) (tr : List Event) :
    (env.endRet ≠ ESP_OK ∧ finOut env label tr = ⟨env.endRet, tr ++ [Event.otaEnd]⟩) ∨
    (env.endRet = ESP_OK ∧ ∃ st, finOut env label tr =
      ⟨env.setBootRet, tr ++ [Event.otaEnd, Event.setBoot label, Event.send st]⟩) := by
  by_cases h : env.endRet = ESP_OK
  · right
    refine ⟨h, ?_⟩
    by_cases h2 : env.setBootRet = ESP_OK
    · exact ⟨_, by rw [finOut, if_neg (by simp [h]), if_pos h2]⟩
    · exact ⟨_, by rw [finOut, if_neg (by simp [h]), if_neg h2]⟩
  · left
    exact ⟨h, by rw [finOut, if_pos h]⟩

lemma bodyPhase_cases (env : Env) (label : String) (b : Int) (tr : List Event) (ns : NetStream) :
    ∃ evs : List Event, evs.all bodyEvt = true ∧
      evs.takeWhile (fun e => !Event.isRecvd e) = [] ∧
      ((∃ tr', bodyLoop env.writeOk b ns tr = LoopOut.failed tr' ∧ tr' = tr ++ evs ∧
          bodyPhase env label b tr ns = failOut (tr ++ evs)) ∨
       (∃ rem, bodyLoop env.writeOk b ns tr = LoopOut.done rem (tr ++ evs) ∧
          ((writtenData evs).length : Int) = b - rem ∧
          ((rem ≠ 0 ∧ bodyPhase env label b tr ns = failOut (tr ++ evs)) ∨
           (rem = 0 ∧ bodyPhase env label b tr ns = finOut env label (tr ++ evs))))) := by
  obtain ⟨evs, h1, h2, h3⟩ := bodyLoopF_decomp (nsSize ns + 1) env.writeOk b ns tr
  refine ⟨evs, h1, h2, ?_⟩
  rcases h3 with ⟨tr', heq, htr⟩ | ⟨rem, heq, hacc⟩
  · left
    refine ⟨tr', by rw [bodyLoop]; exact heq, htr, ?_⟩
    rw [bodyPhase, bodyLoop, heq, htr]
  · right
    refine ⟨rem, by rw [bodyLoop]; exact heq, hacc, ?_⟩
    by_cases hrem : rem = 0
    · right
      refine ⟨hrem, ?_⟩
      rw [bodyPhase, bodyLoop, heq]
      dsimp only
      rw [if_pos hrem]
    · left
      refine ⟨hrem, ?_⟩
      rw [bodyPhase, bodyLoop, heq]
      dsimp only
      rw [if_neg hrem]

lemma uploadRun_cases (env : Env) (label : String) (b : Int) (L : List Nat) (ns : NetStream) :
    (env.beginOk = false ∧ uploadRun env label b L ns = failOut [Event.otaBegin label b]) ∨
    (env.beginOk = true ∧ L ≠ [] ∧ env.writeOk = false ∧
       uploadRun env label b L ns = failOut [Event.otaBegin label b, Event.otaWrite L]) ∨
    (env.beginOk = true ∧ ∃ tr1 b1,
       ((L = [] ∧ tr1 = [Event.otaBegin label b] ∧ b1 = b) ∨
        (L ≠ [] ∧ env.writeOk = true ∧
         tr1 = [Event.otaBegin label b, Event.otaWrite L] ∧ b1 = b - L.length)) ∧
       uploadRun env label b L ns = bodyPhase env label b1 tr1 ns) := by
  by_cases hbeg : env.beginOk = false
  · left
    exact ⟨hbeg, by rw [uploadRun, if_pos hbeg]⟩
  · have hbeg' : env.beginOk = true := by
      cases h : env.beginOk
      · exact absurd h hbeg
      · rfl
    by_cases hL : L = []
    · right; right
      refine ⟨hbeg', [Event.otaBegin label b], b, Or.inl ⟨hL, rfl, rfl⟩, ?_⟩
      rw [uploadRun, if_neg hbeg, if_pos hL]
    · by_cases hw : env.writeOk = false
      · right; left
        refine ⟨hbeg', hL, hw, ?_⟩
        rw [uploadRun, if_neg hbeg, if_neg hL, if_pos hw]
      · have hw' : env.writeOk = true := by
          cases h : env.writeOk
          · exact absurd h hw
          · rfl
        right; right
        refine ⟨hbeg', [Event.otaBegin label b, Event.otaWrite L], b - L.length,
          Or.inr ⟨hL, hw', rfl, rfl⟩, ?_⟩
        rw [uploadRun, if_neg hbeg, if_neg hL, if_neg hw]

lemma ota_receive_ok (env : Env) {ns : NetStream} {acc : List Nat} {binpos : Nat}
    {ns' : NetStream} (h : hdrLoop ns = HdrOut.ok acc binpos ns') :
    ota_receive env ns = handleReq env acc binpos ns' := by
  rw [ota_receive, h]

lemma ota_receive_cases (env : Env) (ns : NetStream) :
    (hdrLoop ns = HdrOut.fail ∧ ota_receive env ns = ⟨ESP_FAIL, []⟩) ∨
    (hdrLoop ns ≠ HdrOut.fail ∧ ∃ rv st, ota_receive env ns = ⟨rv, [Event.send st]⟩) ∨
    (∃ acc binpos ns' label b, hdrLoop ns = HdrOut.ok acc binpos ns' ∧
       env.upart = some label ∧ b ≠ 0 ∧
       ota_receive env ns = uploadRun env label b (acc.drop binpos) ns') := by
  cases h : hdrLoop ns with
  | fail => exact Or.inl ⟨rfl, by rw [ota_receive, h]⟩
  | tooLarge =>
    refine Or.inr (Or.inl ⟨fun hc => HdrOut.noConfusion hc, ?_⟩)
    exact ⟨_, _, by rw [ota_receive, h]⟩
  | ok acc binpos ns' =>
    have hmid : ∀ rv : Int, ∀ st : String,
        ota_receive env ns = ⟨rv, [Event.send st]⟩ →
        ((HdrOut.ok acc binpos ns' : HdrOut) ≠ HdrOut.fail ∧
          ∃ rv st, ota_receive env ns = ⟨rv, [Event.send st]⟩) := by
      intro rv st heq
      exact ⟨fun hc => HdrOut.noConfusion hc, rv, st, heq⟩
    have hrun := ota_receive_ok env h
    rw [handleReq] at hrun
    cases hc1 : env.getversion && prefB "GET " (hdrCStr acc binpos) with
    | true =>
      rw [hc1, if_pos rfl] at hrun
      exact Or.inr (Or.inl (hmid _ _ hrun))
    | false =>
      rw [hc1] at hrun
      rw [if_neg (by exact Bool.false_ne_true)] at hrun
      cases hc2 : prefB "DELETE " (hdrCStr acc binpos) with
      | true =>
        rw [hc2, if_pos rfl] at hrun
        exact Or.inr (Or.inl (hmid _ _ hrun))
      | false =>
        rw [hc2] at hrun
        rw [if_neg (by exact Bool.false_ne_true)] at hrun
        cases hc3 : prefB "POST " (hdrCStr acc binpos) with
        | false =>
          rw [hc3] at hrun
          rw [if_pos (show (!false) = true from rfl)] at hrun
          exact Or.inr (Or.inl (hmid _ _ hrun))
        | true =>
          rw [hc3] at hrun
          rw [if_neg (show ¬((!true) = true) from by simp)] at hrun
          cases hu : env.upart with
          | none =>
            rw [hu] at hrun
            dsimp only at hrun
            exact Or.inr (Or.inl (hmid _ _ hrun))
          | some label =>
            rw [hu] at hrun
            dsimp only at hrun
            cases hf : findSub (hdrRegion acc binpos) clBytes with
            | none =>
              rw [hf] at hrun
              dsimp only at hrun
              exact Or.inr (Or.inl (hmid _ _ hrun))
            | some i =>
              rw [hf] at hrun
              dsimp only at hrun
              by_cases hz : strtol10 ((hdrRegion acc binpos).drop (i + clBytes.length)) = 0
              · rw [if_pos hz] at hrun
                exact Or.inr (Or.inl (hmid _ _ hrun))
              · rw [if_neg hz] at hrun
                exact Or.inr (Or.inr ⟨acc, binpos, ns', label, _, rfl, rfl, hz, hrun⟩)

lemma no_end_of_bodyEvt {evs : List Event} (hall : evs.all bodyEvt = true) :
    Event.otaEnd ∉ evs := by
  intro hmem
  have := List.all_eq_true.mp hall _ hmem
  simp [bodyEvt, Event.isRecvd, Event.isWrite] at this

lemma all_not_send_of_bodyEvt {evs : List Event} (hall : evs.all bodyEvt = true) :
    evs.all (fun e => !Event.isSend e) = true := by
  rw [List.all_eq_true] at hall ⊢
  intro x hx
  have := hall x hx
  cases x <;> simp [bodyEvt, Event.isRecvd, Event.isWrite, Event.isSend] at this ⊢

/-- A nonempty body-loop trace extension starts with a network read. -/
lemma evs_head_recvd {evs : List Event}
    (htw : evs.takeWhile (fun e => !Event.isRecvd e) = []) :
    evs = [] ∨ ∃ d evs₀, evs = Event.recvd d :: evs₀ := by
  cases evs with
  | nil => exact Or.inl rfl
  | cons e t =>
    right
    rw [List.takeWhile_cons] at htw
    by_cases hp : (!Event.isRecvd e) = true
    · rw [if_pos hp] at htw
      exact absurd htw (List.cons_ne_nil _ _)
    · have hrec : Event.isRecvd e = true := by
        cases h : Event.isRecvd e
        · exact absurd (by rw [h]; rfl) hp
        · rfl
      cases e <;> simp [Event.isRecvd] at hrec
      rename_i d
      exact ⟨d, t, rfl⟩

/-- Every `uploadRun` trace begins with the `esp_ota_begin` event. -/
lemma uploadRun_head (env : Env) (label : String) (b : Int) (L : List Nat) (ns : NetStream) :
    (uploadRun env label b L ns).trace.head? = some (Event.otaBegin label b) := by
  rcases uploadRun_cases env label b L ns with ⟨_, heq⟩ | ⟨_, _, _, heq⟩ |
    ⟨_, tr1, b1, hshape, heq⟩
  · rw [heq]; rfl
  · rw [heq]; rfl
  · rw [heq]
    have htr1 : ∃ r, tr1 = Event.otaBegin label b :: r := by
      rcases hshape with ⟨_, h1, _⟩ | ⟨_, _, h1, _⟩
      · exact ⟨[], h1⟩
      · exact ⟨_, h1⟩
    obtain ⟨r, rfl⟩ := htr1
    obtain ⟨evs, _, _, hcase⟩ := bodyPhase_cases env label b1 (Event.otaBegin label b :: r) ns
    rcases hcase with ⟨_, _, _, hbeq⟩ | ⟨rem, _, _, hc⟩
    · rw [hbeq]; rfl
    · rcases hc with ⟨_, hbeq⟩ | ⟨_, hbeq⟩
      · rw [hbeq]; rfl
      · rw [hbeq]
        rcases finOut_cases env label (Event.otaBegin label b :: r ++ evs) with
          ⟨_, hfeq⟩ | ⟨_, st, hfeq⟩
        · rw [hfeq]; rfl
        · rw [hfeq]; rfl

/-- No `esp_ota_end` occurs on a `failota` exit whose prefix has none. -/
lemma no_end_failOut {tr1 evs : List Event} (htr1 : Event.otaEnd ∉ tr1)
    (hall : evs.all bodyEvt = true) :
    Event.otaEnd ∉ (failOut (tr1 ++ evs)).trace := by
  intro hmem
  simp only [failOut, List.append_assoc, List.mem_append] at hmem
  rcases hmem with h | h | h
  · exact htr1 h
  · exact no_end_of_bodyEvt hall h
  · simp at h

/-- Core accounting for a finalized upload trace
`(tr1 ++ evs) ++ tailF`: it is headed by the `otaBegin` event, the bytes
written are the leftover followed by the loop writes and total exactly
the declared length, and the leftover write precedes every body read. -/
lemma upload_trace_accounting {label : String} {b b1 : Int} {L : List Nat}
    {tr1 evs tailF : List Event}
    (hshape : (L = [] ∧ tr1 = [Event.otaBegin label b] ∧ b1 = b) ∨
              (L ≠ [] ∧ tr1 = [Event.otaBegin label b, Event.otaWrite L] ∧
               b1 = b - L.length))
    (hacc : ((writtenData evs).length : Int) = b1)
    (htail : writtenData tailF = [])
    (hbz : b ≠ 0) :
    ((tr1 ++ evs) ++ tailF).head? = some (Event.otaBegin label b) ∧
    ((writtenData ((tr1 ++ evs) ++ tailF)).length : Int) = b ∧
    L <+: writtenData ((tr1 ++ evs) ++ tailF) ∧
    (L ≠ [] → Event.otaWrite L ∈
       ((tr1 ++ evs) ++ tailF).takeWhile (fun e => !Event.isRecvd e)) ∧
    0 < b := by
  rcases hshape with ⟨hL, htr1, hb1⟩ | ⟨hLne, htr1, hb1⟩
  · subst htr1
    subst hL
    have hwd : writtenData (([Event.otaBegin label b] ++ evs) ++ tailF) = writtenData evs := by
      rw [writtenData_append, writtenData_append, htail]
      simp [writtenData, evtBytes]
    refine ⟨rfl, ?_, ?_, ?_, ?_⟩
    · rw [hwd]; omega
    · exact List.nil_prefix
    · intro hne; exact absurd rfl hne
    · omega
  · subst htr1
    have hwd : writtenData (([Event.otaBegin label b, Event.otaWrite L] ++ evs) ++ tailF)
        = L ++ writtenData evs := by
      rw [writtenData_append, writtenData_append, htail]
      simp [writtenData, evtBytes]
    refine ⟨rfl, ?_, ?_, ?_, ?_⟩
    · rw [hwd]
      simp only [List.length_append]
      push_cast
      omega
    · rw [hwd]; exact List.prefix_append _ _
    · intro _
      rw [List.append_assoc]
      refine mem_takeWhile_append _ _ _ ?_ ?_
      · simp [Event.isRecvd]
      · simp
    · omega

/-- Evaluate the post-leftover Transfer Counter on the trace of an upload
that opened the sink: the trace is `tr1` (begin, and the leftover write
when there was one), the body-loop events, and one of the three possible
terminal segments, none of which starts with a sink write. -/
lemma afterLeftoverCounter_eval {label : String} {N : Int} {L : List Nat}
    {tr1 evs tl : List Event}
    (hshape : (L = [] ∧ tr1 = [Event.otaBegin label N]) ∨
              (L ≠ [] ∧ tr1 = [Event.otaBegin label N, Event.otaWrite L]))
    (htw : evs.takeWhile (fun e => !Event.isRecvd e) = [])
    (htail : tl = [Event.otaAbort, Event.send (statusResp "500 Internal Server Error")] ∨
             tl = [Event.otaEnd] ∨
             ∃ lb st, tl = [Event.otaEnd, Event.setBoot lb, Event.send st]) :
    afterLeftoverCounter ((tr1 ++ evs) ++ tl) = some (N - L.length) := by
  rcases hshape with ⟨hL, htr1⟩ | ⟨_, htr1⟩
  · subst htr1
    subst hL
    rcases evs_head_recvd htw with rfl | ⟨d, evs₀, rfl⟩
    · rcases htail with rfl | rfl | ⟨lb, st, rfl⟩ <;> simp [afterLeftoverCounter]
    · simp [afterLeftoverCounter]
  · subst htr1
    simp [afterLeftoverCounter]

/-! ### Claims -/

/-- C1: whenever the handler reaches the finalization of the Write Sink
(an `otaEnd` event), the run was an upload with some declared length `N`
(the size of the opening `otaBegin` event), the total number of bytes
passed to the Write Sink is exactly `N`, the leftover body bytes captured
alongside the header are the first bytes written, and the leftover write
happens before any body-phase network read — for an arbitrary
environment and arbitrary chunking of the transport stream. -/
theorem c1_upload_exact_length (env : Env) (ns : NetStream)
    (h : Event.otaEnd ∈ (ota_receive env ns).trace) :
    ∃ label N L,
      (ota_receive env ns).trace.head? = some (Event.otaBegin label N) ∧
      hdrLeftover ns = some L ∧
      ((writtenData (ota_receive env ns).trace).length : Int) = N ∧
      L <+: writtenData (ota_receive env ns).trace ∧
      (L ≠ [] → Event.otaWrite L ∈
         (ota_receive env ns).trace.takeWhile (fun e => !Event.isRecvd e)) ∧
      0 < N := by
  rcases ota_receive_cases env ns with ⟨_, heq⟩ | ⟨_, rv, st, heq⟩ |
    ⟨acc, binpos, ns', label, b, hh, hu, hbz, heq⟩
  · rw [heq] at h; simp at h
  · rw [heq] at h; simp at h
  · rw [heq] at h ⊢
    have hlef : hdrLeftover ns = some (acc.drop binpos) := by rw [hdrLeftover, hh]
    rcases uploadRun_cases env label b (acc.drop binpos) ns' with ⟨_, hueq⟩ | ⟨_, _, _, hueq⟩ |
      ⟨hbok, tr1, b1, hshape, hueq⟩
    · rw [hueq] at h; simp [failOut] at h
    · rw [hueq] at h; simp [failOut] at h
    · rw [hueq] at h ⊢
      obtain ⟨evs, hall, htw, hcase⟩ := bodyPhase_cases env label b1 tr1 ns'
      have htr1end : Event.otaEnd ∉ tr1 := by
        rcases hshape with ⟨_, h1, _⟩ | ⟨_, _, h1, _⟩ <;> rw [h1] <;> simp
      rcases hcase with ⟨tr', _, _, hbeq⟩ | ⟨rem, _, hacc2, hc⟩
      · rw [hbeq] at h
        exact absurd h (no_end_failOut htr1end hall)
      · rcases hc with ⟨hrem, hbeq⟩ | ⟨hrem, hbeq⟩
        · rw [hbeq] at h
          exact absurd h (no_end_failOut htr1end hall)
        · subst hrem
          rw [hbeq] at h ⊢
          have hacc' : ((writtenData evs).length : Int) = b1 := by omega
          have hshape' : (acc.drop binpos = [] ∧ tr1 = [Event.otaBegin label b] ∧ b1 = b) ∨
              (acc.drop binpos ≠ [] ∧
               tr1 = [Event.otaBegin label b, Event.otaWrite (acc.drop binpos)] ∧
               b1 = b - (acc.drop binpos).length) := by
            rcases hshape with ⟨a1, a2, a3⟩ | ⟨a1, a2, a3, a4⟩
            · exact Or.inl ⟨a1, a2, a3⟩
            · exact Or.inr ⟨a1, a3, a4⟩
          rcases finOut_cases env label (tr1 ++ evs) with ⟨hne, hfeq⟩ | ⟨hok, st, hfeq⟩ <;>
            rw [hfeq] at h ⊢
          · obtain ⟨k1, k2, k3, k4, k5⟩ := upload_trace_accounting hshape' hacc'
              (show writtenData [Event.otaEnd] = [] from rfl) hbz
            exact ⟨label, b, acc.drop binpos, k1, hlef, k2, k3, k4, k5⟩
          · obtain ⟨k1, k2, k3, k4, k5⟩ := upload_trace_accounting hshape' hacc'
              (show writtenData [Event.otaEnd, Event.setBoot label, Event.send st] = []
                from rfl) hbz
            exact ⟨label, b, acc.drop binpos, k1, hlef, k2, k3, k4, k5⟩

/-- Witness for C1: a 4-byte upload whose body is split as header+2 bytes
then 2 more bytes. -/
theorem c1_witness :
    Event.otaEnd ∈ (ota_receive env0 nsUp).trace ∧
    (∃ label N L,
      (ota_receive env0 nsUp).trace.head? = some (Event.otaBegin label N) ∧
      hdrLeftover nsUp = some L ∧
      ((writtenData (ota_receive env0 nsUp).trace).length : Int) = N ∧
      L <+: writtenData (ota_receive env0 nsUp).trace ∧
      (L ≠ [] → Event.otaWrite L ∈
         (ota_receive env0 nsUp).trace.takeWhile (fun e => !Event.isRecvd e)) ∧
      0 < N) :=
  ⟨by decide, c1_upload_exact_length env0 nsUp (by decide)⟩

/-- C7: if the receive buffer fills to capacity minus one byte without the
CR LF CR LF separator being found, the handler emits the terminal status
"431 Request Header Fields Too Large" and performs no further processing:
the whole observable behaviour is that single response, with no
classification and no storage interaction, and the call fails. -/
theorem c7_header_too_large (env : Env) (ns : NetStream)
    (h : hdrLoop ns = HdrOut.tooLarge) :
    ota_receive env ns =
      ⟨ESP_FAIL, [Event.send (statusResp "431 Request Header Fields Too Large")]⟩ := by
  rw [ota_receive, h]

/-- Witness for C7: 1023 bytes of `A` fill the buffer with no separator. -/
theorem c7_witness :
    hdrLoop nsBig = HdrOut.tooLarge ∧
    ota_receive env0 nsBig =
      ⟨ESP_FAIL, [Event.send (statusResp "431 Request Header Fields Too Large")]⟩ :=
  ⟨by decide, c7_header_too_large env0 nsBig (by decide)⟩

/-- C9: a version query (GET with the feature enabled) responds
"200 OK" with a body holding the firmware version string, yet returns the
failure code `ESP_FAIL` to the caller, and its trace consists of that one
response only — the Write Sink is never opened, written, or finalized. -/
theorem c9_version_query (env : Env) (ns : NetStream) (acc : List Nat) (binpos : Nat)
    (ns' : NetStream) (h : hdrLoop ns = HdrOut.ok acc binpos ns')
    (hg : env.getversion = true)
    (hget : prefB "GET " (hdrCStr acc binpos) = true) :
    ota_receive env ns =
      ⟨ESP_FAIL, [Event.send ("HTTP/1.0 200 OK\r\n\r\nVersion: " ++ env.version ++ "\n")]⟩ ∧
    ∀ e ∈ (ota_receive env ns).trace, e.isSend = true := by
  have hrun := ota_receive_ok env h
  rw [handleReq, hg, hget] at hrun
  rw [if_pos (show (true && true) = true from rfl)] at hrun
  refine ⟨hrun, ?_⟩
  rw [hrun]
  intro e he
  simp only [List.mem_singleton] at he
  rw [he]
  rfl

/-- Witness for C9. -/
theorem c9_witness :
    hdrLoop nsGet = HdrOut.ok accGet 18 [] ∧
    (ota_receive env0 nsGet =
      ⟨ESP_FAIL, [Event.send ("HTTP/1.0 200 OK\r\n\r\nVersion: " ++ env0.version ++ "\n")]⟩ ∧
     ∀ e ∈ (ota_receive env0 nsGet).trace, e.isSend = true) :=
  ⟨by decide, c9_version_query env0 nsGet accGet 18 [] (by decide) rfl (by decide)⟩

/-- C6: an Upload request whose header region lacks the literal token
`Content-Length:`, or whose parsed value is zero, gets the terminal
status "411 Length Required" and a failure result, with a trace holding
that single response and in particular no Write Sink interaction; and the
value parsed after the token is computed by `strtol` base 10, which on a
digit run yields exactly its non-negative base-10 value. -/
theorem c6_length_required (env : Env) (ns : NetStream) (acc : List Nat) (binpos : Nat)
    (ns' : NetStream) (label : String)
    (h : hdrLoop ns = HdrOut.ok acc binpos ns')
    (hg : (env.getversion && prefB "GET " (hdrCStr acc binpos)) = false)
    (hdel : prefB "DELETE " (hdrCStr acc binpos) = false)
    (hpost : prefB "POST " (hdrCStr acc binpos) = true)
    (hu : env.upart = some label)
    (hcl : findSub (hdrRegion acc binpos) clBytes = none ∨
           ∃ i, findSub (hdrRegion acc binpos) clBytes = some i ∧
             strtol10 ((hdrRegion acc binpos).drop (i + clBytes.length)) = 0) :
    ota_receive env ns = ⟨ESP_FAIL, [Event.send (statusResp "411 Length Required")]⟩ ∧
    (∀ l : List Nat, (∀ b ∈ l, 48 ≤ b ∧ b ≤ 57) →
       strtol10 l = ((l.foldl (fun a d => a * 10 + (d - 48)) 0 : Nat) : Int) ∧
       0 ≤ strtol10 l) := by
  refine ⟨?_, fun l hl => strtol10_digits hl⟩
  have hrun := ota_receive_ok env h
  rw [handleReq, hg, if_neg Bool.false_ne_true, hdel, if_neg Bool.false_ne_true,
    hpost, if_neg (show ¬((!true) = true) from by simp), hu] at hrun
  dsimp only at hrun
  rcases hcl with hnone | ⟨i, hsome, hzero⟩
  · rw [hnone] at hrun
    exact hrun
  · rw [hsome] at hrun
    dsimp only at hrun
    rw [if_pos hzero] at hrun
    exact hrun

/-- Witness for C6: a POST with no `Content-Length` header at all. -/
theorem c6_witness :
    hdrLoop nsNoLen = HdrOut.ok accNoLen 19 [] ∧
    (ota_receive env0 nsNoLen = ⟨ESP_FAIL, [Event.send (statusResp "411 Length Required")]⟩ ∧
     ∀ l : List Nat, (∀ b ∈ l, 48 ≤ b ∧ b ≤ 57) →
       strtol10 l = ((l.foldl (fun a d => a * 10 + (d - 48)) 0 : Nat) : Int) ∧
       0 ≤ strtol10 l) :=
  ⟨by decide, c6_length_required env0 nsNoLen accNoLen 19 [] "ota_1"
    (by decide) (by decide) (by decide) (by decide) rfl (Or.inl (by decide))⟩

/-- C10: when the storage subsystem reports no writable slot, an Abort
(DELETE) still gets its normal "204 No Content" with a success result and
a version query (GET, feature enabled) still gets its normal "200 OK";
the "501 Not Implemented" answer is produced only once a request has been
classified as Upload (POST). -/
theorem c10_no_slot_only_for_post (env : Env) (ns : NetStream) (acc : List Nat)
    (binpos : Nat) (ns' : NetStream)
    (h : hdrLoop ns = HdrOut.ok acc binpos ns')
    (hu : env.upart = none) :
    (prefB "DELETE " (hdrCStr acc binpos) = true →
       ota_receive env ns = ⟨ESP_OK, [Event.send (statusResp "204 No Content")]⟩) ∧
    (env.getversion = true → prefB "GET " (hdrCStr acc binpos) = true →
       ota_receive env ns =
         ⟨ESP_FAIL, [Event.send ("HTTP/1.0 200 OK\r\n\r\nVersion: " ++ env.version ++ "\n")]⟩) ∧
    ((env.getversion && prefB "GET " (hdrCStr acc binpos)) = false →
     prefB "DELETE " (hdrCStr acc binpos) = false →
     prefB "POST " (hdrCStr acc binpos) = true →
       ota_receive env ns =
         ⟨ESP_ERR_NOT_SUPPORTED, [Event.send (statusResp "501 Not Implemented")]⟩) := by
  refine ⟨?_, ?_, ?_⟩
  · intro hdel
    have hget : prefB "GET " (hdrCStr acc binpos) = false := not_get_of_delete hdel
    have hrun := ota_receive_ok env h
    rw [handleReq, hget, Bool.and_false, if_neg Bool.false_ne_true, hdel,
      if_pos rfl] at hrun
    exact hrun
  · intro hg hget
    have hrun := ota_receive_ok env h
    rw [handleReq, hg, hget] at hrun
    rw [if_pos (show (true && true) = true from rfl)] at hrun
    exact hrun
  · intro hgv hdel hpost
    have hrun := ota_receive_ok env h
    rw [handleReq, hgv, if_neg Bool.false_ne_true, hdel, if_neg Bool.false_ne_true,
      hpost, if_neg (show ¬((!true) = true) from by simp), hu] at hrun
    dsimp only at hrun
    exact hrun

/-- C2: if an upload began (declared length `N`) on an error-free stream
with a Write Sink accepting all writes, and fewer than `N` body bytes
were passed to the sink — i.e. the peer closed early, the only remaining
way the transfer can fall short — then the Write Sink is never finalized:
the handler aborts it, returns `ESP_FAIL`, and its last action is sending
the terminal status "500 Internal Server Error". -/
theorem c2_early_close_aborts (env : Env) (ns : NetStream) (label : String) (N : Int)
    (hhead : (ota_receive env ns).trace.head? = some (Event.otaBegin label N))
    (hnoerr : noErr ns = true)
    (hw : env.writeOk = true)
    (hlt : ((writtenData (ota_receive env ns).trace).length : Int) < N) :
    (ota_receive env ns).ret = ESP_FAIL ∧
    Event.otaAbort ∈ (ota_receive env ns).trace ∧
    Event.otaEnd ∉ (ota_receive env ns).trace ∧
    (ota_receive env ns).trace.getLast? =
      some (Event.send (statusResp "500 Internal Server Error")) := by
  rcases ota_receive_cases env ns with ⟨_, heq⟩ | ⟨_, rv, st, heq⟩ |
    ⟨acc, binpos, ns', label', b, hh, hu, hbz, heq⟩
  · rw [heq] at hhead; simp at hhead
  · rw [heq] at hhead; simp at hhead
  · rw [heq] at hhead hlt ⊢
    have hne' : noErr ns' = true := by
      rw [hdrLoop] at hh
      exact hdrLoopF_noErr _ _ _ hh hnoerr
    have hNb : b = N := by
      have hhd := uploadRun_head env label' b (acc.drop binpos) ns'
      rw [hhd] at hhead
      simp only [Option.some.injEq, Event.otaBegin.injEq] at hhead
      exact hhead.2
    subst hNb
    rcases uploadRun_cases env label' b (acc.drop binpos) ns' with ⟨_, hueq⟩ |
      ⟨_, _, hwf, _⟩ | ⟨hbok, tr1, b1, hshape, hueq⟩
    · rw [hueq]
      refine ⟨rfl, by simp [failOut], by simp [failOut], ?_⟩
      exact getLast_append_pair _ _ _
    · rw [hw] at hwf
      exact absurd hwf (by simp)
    · rw [hueq] at hlt ⊢
      obtain ⟨evs, hall, htw, hcase⟩ := bodyPhase_cases env label' b1 tr1 ns'
      have htr1end : Event.otaEnd ∉ tr1 := by
        rcases hshape with ⟨_, h1, _⟩ | ⟨_, _, h1, _⟩ <;> rw [h1] <;> simp
      rcases hcase with ⟨tr', hbl, _, _⟩ | ⟨rem, _, hacc2, hc⟩
      · exfalso
        rw [bodyLoop, hw] at hbl
        exact bodyLoopF_no_failed (nsSize ns' + 1) b1 ns' tr1 (by omega) hne' tr' hbl
      · rcases hc with ⟨hrem, hbeq⟩ | ⟨hrem, hbeq⟩
        · rw [hbeq]
          refine ⟨rfl, by simp [failOut], no_end_failOut htr1end hall, ?_⟩
          rw [failOut]
          exact getLast_append_pair _ _ _
        · exfalso
          subst hrem
          rw [hbeq] at hlt
          have hshape' : (acc.drop binpos = [] ∧ tr1 = [Event.otaBegin label' b] ∧ b1 = b) ∨
              (acc.drop binpos ≠ [] ∧
               tr1 = [Event.otaBegin label' b, Event.otaWrite (acc.drop binpos)] ∧
               b1 = b - (acc.drop binpos).length) := by
            rcases hshape with ⟨a1, a2, a3⟩ | ⟨a1, a2, a3, a4⟩
            · exact Or.inl ⟨a1, a2, a3⟩
            · exact Or.inr ⟨a1, a3, a4⟩
          have hacc' : ((writtenData evs).length : Int) = b1 := by omega
          rcases finOut_cases env label' (tr1 ++ evs) with ⟨_, hfeq⟩ | ⟨_, st, hfeq⟩ <;>
            rw [hfeq] at hlt
          · have hk := (upload_trace_accounting hshape' hacc'
              (show writtenData [Event.otaEnd] = [] from rfl) hbz).2.1
            rw [hk] at hlt
            omega
          · have hk := (upload_trace_accounting hshape' hacc'
              (show writtenData [Event.otaEnd, Event.setBoot label', Event.send st] = []
                from rfl) hbz).2.1
            rw [hk] at hlt
            omega

/-- Witness for C2: the peer closes after 2 of 10 declared body bytes. -/
theorem c2_witness :
    (ota_receive env0 nsShort).trace.head? = some (Event.otaBegin "ota_1" 10) ∧
    noErr nsShort = true ∧
    ((writtenData (ota_receive env0 nsShort).trace).length : Int) < 10 ∧
    ((ota_receive env0 nsShort).ret = ESP_FAIL ∧
     Event.otaAbort ∈ (ota_receive env0 nsShort).trace ∧
     Event.otaEnd ∉ (ota_receive env0 nsShort).trace ∧
     (ota_receive env0 nsShort).trace.getLast? =
       some (Event.send (statusResp "500 Internal Server Error"))) :=
  ⟨by decide, by decide, by decide,
    c2_early_close_aborts env0 nsShort "ota_1" 10 (by decide) (by decide) rfl (by decide)⟩

/-- C5 counterexample: the claim that the Transfer Counter never becomes
negative, including across the initial leftover subtraction, is false on
the code: a peer declaring `Content-Length: 2` while delivering 10 body
bytes alongside the header drives the counter to `-8` at the leftover
subtraction, because `binlen -= len` is not guarded there. -/
theorem c5_counterexample :
    afterLeftoverCounter (ota_receive env0 nsOver).trace = some (-8) ∧ (-8 : Int) < 0 := by
  decide

/-- C5 (amended): provided the leftover body prefix captured during
header accumulation is no longer than the declared length `N` (which is
the case whenever the peer does not over-deliver), the Transfer Counter
stays non-negative across the initial leftover subtraction, and
throughout the body-transfer loop its trajectory is monotonically
non-increasing and confined to `[0, N]`; each loop read requests exactly
`min(buffer capacity, remaining)` bytes. -/
theorem c5_counter_invariant (env : Env) (ns : NetStream) (label : String) (N : Int)
    (hhead : (ota_receive env ns).trace.head? = some (Event.otaBegin label N))
    (hbegin : env.beginOk = true)
    (hlef : ((leftoverLen ns : Int) ≤ N)) :
    ∃ ns' b1, hdrRest ns = some ns' ∧ b1 = N - (leftoverLen ns : Int) ∧ 0 ≤ b1 ∧
      afterLeftoverCounter (ota_receive env ns).trace = some b1 ∧
      (∀ c ∈ bodyCounters env.writeOk b1 ns', 0 ≤ c ∧ c ≤ N) ∧
      List.Chain' (fun x y => y ≤ x) (bodyCounters env.writeOk b1 ns') ∧
      (∀ c : Int, 0 < c → (reqSize c : Int) = min 1024 c) := by
  rcases ota_receive_cases env ns with ⟨_, heq⟩ | ⟨_, rv, st, heq⟩ |
    ⟨acc, binpos, ns', label', b, hh, hu, hbz, heq⟩
  · rw [heq] at hhead; simp at hhead
  · rw [heq] at hhead; simp at hhead
  · rw [heq] at hhead ⊢
    have hNb : N = b := by
      have hhd := uploadRun_head env label' b (acc.drop binpos) ns'
      rw [hhd] at hhead
      simp only [Option.some.injEq, Event.otaBegin.injEq] at hhead
      exact hhead.2.symm
    subst hNb
    have hlfl : leftoverLen ns = (acc.drop binpos).length := by rw [leftoverLen, hh]
    have hrest : hdrRest ns = some ns' := by rw [hdrRest, hh]
    have hb1 : (0 : Int) ≤ N - (leftoverLen ns : Int) := by omega
    obtain ⟨hm, hc⟩ := bodyCountersF_inv (nsSize ns' + 1) env.writeOk
      (N - (leftoverLen ns : Int)) ns' hb1
    refine ⟨ns', N - (leftoverLen ns : Int), hrest, rfl, hb1, ?_, ?_, ?_, ?_⟩
    · -- the counter right after the leftover subtraction
      rw [hlfl]
      rcases uploadRun_cases env label' N (acc.drop binpos) ns' with ⟨hbf, _⟩ |
        ⟨_, hLne, _, hueq⟩ | ⟨_, tr1, b1', hshape, hueq⟩
      · rw [hbegin] at hbf; simp at hbf
      · rw [hueq]
        simp [failOut, afterLeftoverCounter]
      · rw [hueq]
        have hshape' : (acc.drop binpos = [] ∧ tr1 = [Event.otaBegin label' N]) ∨
            (acc.drop binpos ≠ [] ∧
             tr1 = [Event.otaBegin label' N, Event.otaWrite (acc.drop binpos)]) := by
          rcases hshape with ⟨a1, a2, _⟩ | ⟨a1, _, a2, _⟩
          · exact Or.inl ⟨a1, a2⟩
          · exact Or.inr ⟨a1, a2⟩
        obtain ⟨evs, hall, htw, hcase⟩ := bodyPhase_cases env label' b1' tr1 ns'
        rcases hcase with ⟨tr', _, _, hbeq⟩ | ⟨rem, _, _, hcc⟩
        · rw [hbeq, failOut]
          exact afterLeftoverCounter_eval hshape' htw (Or.inl rfl)
        · rcases hcc with ⟨_, hbeq⟩ | ⟨_, hbeq⟩
          · rw [hbeq, failOut]
            exact afterLeftoverCounter_eval hshape' htw (Or.inl rfl)
          · rw [hbeq]
            rcases finOut_cases env label' (tr1 ++ evs) with ⟨_, hfeq⟩ | ⟨_, st, hfeq⟩ <;>
              rw [hfeq]
            · exact afterLeftoverCounter_eval hshape' htw (Or.inr (Or.inl rfl))
            · exact afterLeftoverCounter_eval hshape' htw (Or.inr (Or.inr ⟨_, _, rfl⟩))
    · intro c hcm
      rw [bodyCounters] at hcm
      have := hm c hcm
      omega
    · rw [bodyCounters]
      exact hc
    · intro c hcp
      exact reqSize_eq_min hcp

/-- Witness for the amended C5: the well-behaved 4-byte upload. -/
theorem c5_witness :
    (ota_receive env0 nsUp).trace.head? = some (Event.otaBegin "ota_1" 4) ∧
    env0.beginOk = true ∧
    ((leftoverLen nsUp : Int) ≤ 4) ∧
    (∃ ns' b1, hdrRest nsUp = some ns' ∧ b1 = 4 - (leftoverLen nsUp : Int) ∧ 0 ≤ b1 ∧
      afterLeftoverCounter (ota_receive env0 nsUp).trace = some b1 ∧
      (∀ c ∈ bodyCounters env0.writeOk b1 ns', 0 ≤ c ∧ c ≤ 4) ∧
      List.Chain' (fun x y => y ≤ x) (bodyCounters env0.writeOk b1 ns') ∧
      (∀ c : Int, 0 < c → (reqSize c : Int) = min 1024 c)) :=
  ⟨by decide, rfl, by decide,
    c5_counter_invariant env0 nsUp "ota_1" 4 (by decide) rfl (by decide)⟩

/-- C4 counterexample: the claim that exactly one terminal status is
written on *every* exit path is false on the code: a transport error
during header accumulation returns `ESP_FAIL` with no response written at
all (zero sends). -/
theorem c4_counterexample :
    ota_receive env0 [NetEvt.err] = ⟨ESP_FAIL, []⟩ ∧
    sendCount (ota_receive env0 [NetEvt.err]).trace = 0 := by decide

/-- C4 (amended): on every accepted connection the handler writes at most
one response, and any response it writes is its final action — no bytes
follow it.  Exactly one response is written on every exit path *except*
two: a transport failure during header accumulation, and a reached but
failed Write Sink finalization (`esp_ota_end` error), on which no
response at all is written (`noStatusPath` characterizes exactly those
two paths). -/
theorem c4_single_response (env : Env) (ns : NetStream) :
    (noStatusPath env ns = true ∧
       (ota_receive env ns).trace.all (fun e => !Event.isSend e) = true) ∨
    (noStatusPath env ns = false ∧
       ∃ tr₀ st, (ota_receive env ns).trace = tr₀ ++ [Event.send st] ∧
         tr₀.all (fun e => !Event.isSend e) = true) := by
  rcases ota_receive_cases env ns with ⟨hfail, heq⟩ | ⟨hnf, rv, st, heq⟩ |
    ⟨acc, binpos, ns', label, b, hh, hu, hbz, heq⟩
  · left
    constructor
    · rw [noStatusPath, hfail]
    · rw [heq]
      rfl
  · right
    constructor
    · rw [noStatusPath]
      cases hv : hdrLoop ns with
      | fail => exact absurd hv hnf
      | tooLarge =>
        dsimp only
        rw [heq, if_neg]
        rintro ⟨hm, _⟩
        simp at hm
      | ok a bp r =>
        dsimp only
        rw [heq, if_neg]
        rintro ⟨hm, _⟩
        simp at hm
    · exact ⟨[], st, by rw [heq]; rfl, rfl⟩
  · have mk_right : ∀ (tr₀ : List Event) (st : String),
        (ota_receive env ns).trace = tr₀ ++ [Event.send st] →
        tr₀.all (fun e => !Event.isSend e) = true →
        ¬(Event.otaEnd ∈ (ota_receive env ns).trace ∧ env.endRet ≠ ESP_OK) →
        (noStatusPath env ns = true ∧
           (ota_receive env ns).trace.all (fun e => !Event.isSend e) = true) ∨
        (noStatusPath env ns = false ∧
           ∃ tr₀ st, (ota_receive env ns).trace = tr₀ ++ [Event.send st] ∧
             tr₀.all (fun e => !Event.isSend e) = true) := by
      intro tr₀ st htr hall0 hcond
      right
      refine ⟨?_, tr₀, st, htr, hall0⟩
      rw [noStatusPath, hh]
      dsimp only
      rw [if_neg hcond]
    have mk_left : (ota_receive env ns).trace.all (fun e => !Event.isSend e) = true →
        Event.otaEnd ∈ (ota_receive env ns).trace →
        env.endRet ≠ ESP_OK →
        (noStatusPath env ns = true ∧
           (ota_receive env ns).trace.all (fun e => !Event.isSend e) = true) ∨
        (noStatusPath env ns = false ∧
           ∃ tr₀ st, (ota_receive env ns).trace = tr₀ ++ [Event.send st] ∧
             tr₀.all (fun e => !Event.isSend e) = true) := by
      intro hall0 hend hne
      left
      refine ⟨?_, hall0⟩
      rw [noStatusPath, hh]
      dsimp only
      rw [if_pos ⟨hend, hne⟩]
    rcases uploadRun_cases env label b (acc.drop binpos) ns' with ⟨_, hueq⟩ |
      ⟨_, _, _, hueq⟩ | ⟨hbok, tr1, b1, hshape, hueq⟩
    · refine mk_right [Event.otaBegin label b, Event.otaAbort] _
        (by rw [heq, hueq]; rfl) rfl ?_
      rintro ⟨hm, _⟩
      rw [heq, hueq] at hm
      simp [failOut] at hm
    · refine mk_right [Event.otaBegin label b, Event.otaWrite (acc.drop binpos),
        Event.otaAbort] _ (by rw [heq, hueq]; rfl) rfl ?_
      rintro ⟨hm, _⟩
      rw [heq, hueq] at hm
      simp [failOut] at hm
    · obtain ⟨evs, hall, htw, hcase⟩ := bodyPhase_cases env label b1 tr1 ns'
      have htr1ne : Event.otaEnd ∉ tr1 := by
        rcases hshape with ⟨_, h1, _⟩ | ⟨_, _, h1, _⟩ <;> rw [h1] <;> simp
      have htr1ns : tr1.all (fun e => !Event.isSend e) = true := by
        rcases hshape with ⟨_, h1, _⟩ | ⟨_, _, h1, _⟩ <;> rw [h1] <;> rfl
      have hevsns := all_not_send_of_bodyEvt hall
      rcases hcase with ⟨tr', _, _, hbeq⟩ | ⟨rem, _, _, hcc⟩
      · refine mk_right (tr1 ++ (evs ++ [Event.otaAbort]))
          (statusResp "500 Internal Server Error")
          (by rw [heq, hueq, hbeq]; simp [failOut]) ?_ ?_
        · simp only [List.all_append, Bool.and_eq_true]
          exact ⟨htr1ns, hevsns, rfl⟩
        · rintro ⟨hm, _⟩
          rw [heq, hueq, hbeq] at hm
          exact no_end_failOut htr1ne hall hm
      · rcases hcc with ⟨_, hbeq⟩ | ⟨_, hbeq⟩
        · refine mk_right (tr1 ++ (evs ++ [Event.otaAbort]))
            (statusResp "500 Internal Server Error")
            (by rw [heq, hueq, hbeq]; simp [failOut]) ?_ ?_
          · simp only [List.all_append, Bool.and_eq_true]
            exact ⟨htr1ns, hevsns, rfl⟩
          · rintro ⟨hm, _⟩
            rw [heq, hueq, hbeq] at hm
            exact no_end_failOut htr1ne hall hm
        · rcases finOut_cases env label (tr1 ++ evs) with ⟨hne, hfeq⟩ | ⟨hok, st, hfeq⟩
          · refine mk_left ?_ ?_ hne
            · rw [heq, hueq, hbeq, hfeq]
              simp only [List.all_append, Bool.and_eq_true]
              exact ⟨⟨htr1ns, hevsns⟩, rfl⟩
            · rw [heq, hueq, hbeq, hfeq]
              simp
          · refine mk_right (tr1 ++ (evs ++ [Event.otaEnd, Event.setBoot label])) st
              (by rw [heq, hueq, hbeq, hfeq]; simp) ?_ ?_
            · simp only [List.all_append, Bool.and_eq_true]
              exact ⟨htr1ns, hevsns, rfl⟩
            · rintro ⟨_, hne⟩
              exact hne hok

/-- C8: classification looks at the leading token of the header region in
priority order, first match winning: `GET ` (feature enabled) is a
version query; otherwise `DELETE ` is an abort answered "204 No Content";
otherwise `POST ` is an upload (whose observable outcomes are the 501 of
a missing slot, the 411 of a missing/zero length, or an opened Write
Sink); and any other leading token gets "405 Method Not Allowed". -/
theorem c8_classification_priority (env : Env) (ns : NetStream) (acc : List Nat)
    (binpos : Nat) (ns' : NetStream)
    (h : hdrLoop ns = HdrOut.ok acc binpos ns') :
    (env.getversion = true → prefB "GET " (hdrCStr acc binpos) = true →
       ota_receive env ns =
         ⟨ESP_FAIL, [Event.send ("HTTP/1.0 200 OK\r\n\r\nVersion: " ++ env.version ++ "\n")]⟩) ∧
    ((env.getversion && prefB "GET " (hdrCStr acc binpos)) = false →
     prefB "DELETE " (hdrCStr acc binpos) = true →
       ota_receive env ns = ⟨ESP_OK, [Event.send (statusResp "204 No Content")]⟩) ∧
    ((env.getversion && prefB "GET " (hdrCStr acc binpos)) = false →
     prefB "DELETE " (hdrCStr acc binpos) = false →
     prefB "POST " (hdrCStr acc binpos) = true →
       ((ota_receive env ns).trace = [Event.send (statusResp "501 Not Implemented")] ∧
          (ota_receive env ns).ret = ESP_ERR_NOT_SUPPORTED) ∨
       (ota_receive env ns).trace = [Event.send (statusResp "411 Length Required")] ∨
       (∃ label N, (ota_receive env ns).trace.head? = some (Event.otaBegin label N))) ∧
    ((env.getversion && prefB "GET " (hdrCStr acc binpos)) = false →
     prefB "DELETE " (hdrCStr acc binpos) = false →
     prefB "POST " (hdrCStr acc binpos) = false →
       ota_receive env ns = ⟨ESP_FAIL, [Event.send (statusResp "405 Method Not Allowed")]⟩) := by
  refine ⟨?_, ?_, ?_, ?_⟩
  · intro hg hget
    have hrun := ota_receive_ok env h
    rw [handleReq, hg, hget] at hrun
    rw [if_pos (show (true && true) = true from rfl)] at hrun
    exact hrun
  · intro hgv hdel
    have hrun := ota_receive_ok env h
    rw [handleReq, hgv, if_neg Bool.false_ne_true, hdel, if_pos rfl] at hrun
    exact hrun
  · intro hgv hdel hpost
    have hrun := ota_receive_ok env h
    rw [handleReq, hgv, if_neg Bool.false_ne_true, hdel, if_neg Bool.false_ne_true,
      hpost, if_neg (show ¬((!true) = true) from by simp)] at hrun
    cases hu : env.upart with
    | none =>
      rw [hu] at hrun
      dsimp only at hrun
      rw [hrun]
      exact Or.inl ⟨rfl, rfl⟩
    | some label =>
      rw [hu] at hrun
      dsimp only at hrun
      cases hf : findSub (hdrRegion acc binpos) clBytes with
      | none =>
        rw [hf] at hrun
        dsimp only at hrun
        rw [hrun]
        exact Or.inr (Or.inl rfl)
      | some i =>
        rw [hf] at hrun
        dsimp only at hrun
        by_cases hz : strtol10 ((hdrRegion acc binpos).drop (i + clBytes.length)) = 0
        · rw [if_pos hz] at hrun
          rw [hrun]
          exact Or.inr (Or.inl rfl)
        · rw [if_neg hz] at hrun
          rw [hrun]
          exact Or.inr (Or.inr ⟨label, _, uploadRun_head env label _ _ ns'⟩)
  · intro hgv hdel hpost
    have hrun := ota_receive_ok env h
    rw [handleReq, hgv, if_neg Bool.false_ne_true, hdel, if_neg Bool.false_ne_true,
      hpost, if_pos (show (!false) = true from rfl)] at hrun
    exact hrun

/-- Witness for C8: an unsupported method (`PATCH`) is answered 405. -/
theorem c8_witness :
    hdrLoop nsPatch = HdrOut.ok accPatch 20 [] ∧
    ota_receive env0 nsPatch = ⟨ESP_FAIL, [Event.send (statusResp "405 Method Not Allowed")]⟩ :=
  ⟨by decide,
    (c8_classification_priority env0 nsPatch accPatch 20 [] (by decide)).2.2.2
      (by decide) (by decide) (by decide)⟩

/-- C3 (code bug): the header loop searches for `"\r\n\r\n"` with
`strstr(s, needle)` where `s` is the position of the freshly received
chunk, not the start of the buffer, so a separator split across two reads
is never found.  On the two-read stream `nsSplit` the accumulated bytes
contain the separator (at offset 14, well within the first 1023 bytes),
yet the handler never classifies the request: it runs out of input and
returns `ESP_FAIL` with an empty trace (no response at all). -/
theorem c3_split_separator_missed :
    findSub (strBytes "GET / HTTP/1.0\r\n" ++ strBytes "\r\n") sepBytes = some 14 ∧
    ota_receive env0 nsSplit = ⟨ESP_FAIL, []⟩ := by decide

/-- Witness for C10: a DELETE on a device with no writable slot. -/
theorem c10_witness :
    hdrLoop nsDel = HdrOut.ok accDel 21 [] ∧
    envNoPart.upart = none ∧
    ota_receive envNoPart nsDel = ⟨ESP_OK, [Event.send (statusResp "204 No Content")]⟩ :=
  ⟨by decide, rfl,
    (c10_no_slot_only_for_post envNoPart nsDel accDel 21 [] (by decide) rfl).1 (by decide)⟩

end SimplePushota
